import Mathlib

/-!
A verification development for the terrier execution engine.

The definitions below are shallow embeddings of the C++ sources:
  * `src/execution/sema/sema_builtin.cpp` — the semantic analyzer for the
    built-in operator DSL and the online index build coordinator
    (`IndexManager::CreateConcurrently`, `Drop`, `PopulateIndex`);
  * `src/execution/compiler/pipeline.cpp` — `Pipeline::NextStep` / `Add`;
  * `src/catalog/namespace_handle.cpp` — `NamespaceHandle::GetNamespaceEntry`;
  * `test/include/execution/compiler/output_checker.h` — the output checker
    framework (`SingleIntSortChecker`).

External collaborators (transaction manager, storage, catalog row store) are
modelled as explicit parameters/oracles, following their contracts in §6 of
the specification.
-/

namespace Terrier

/-! ## The intrinsic type universe (execution/ast/type.h as used by sema) -/

/-- The closed enumeration of builtin type kinds used by the checkers we
embed.  Mirrors `ast::BuiltinType::Kind`. -/
inductive BuiltinKind where
  | Bool | Int8 | Int16 | Int32 | Int64
  | Uint8 | Uint16 | Uint32 | Uint64
  | Float32 | Float64 | Nil
  | Boolean | Integer | Real | StringVal | Date
  | ProjectedColumnsIterator | TableVectorIterator | IndexIterator
  | JoinHashTable | JoinHashTableIterator
  | AggregationHashTable | AggregationHashTableIterator | AggOverflowPartIter
  | Sorter | SorterIterator | FilterManager | MemoryPool
  | ThreadStateContainer | ExecutionContext
  deriving DecidableEq, Repr

/-- Types as the analyzer sees them: builtin kinds, pointer-of, function-of,
and the string type.  Mirrors `ast::Type` (kinds are uniqued in the source,
so structural equality here is type identity there). -/
inductive Ty where
  | builtin (k : BuiltinKind)
  | pointerTo (t : Ty)
  | functionTy (params : List Ty) (ret : Ty)
  | stringTy

/-- `ast::Type::GetPointeeType`: the base type when the receiver is a
pointer, otherwise none. -/
def Ty.GetPointeeType : Ty → Option Ty
  | .pointerTo t => some t
  | _ => none

/-- `ast::Type::IsSpecificBuiltin(kind)`. -/
def Ty.IsSpecificBuiltin : Ty → BuiltinKind → Bool
  | .builtin k, k2 => k == k2
  | _, _ => false

/-- `ast::Type::IsPointerType`. -/
def Ty.IsPointerType : Ty → Bool
  | .pointerTo _ => true
  | _ => false

/-- `ast::Type::IsFunctionType`. -/
def Ty.IsFunctionType : Ty → Bool
  | .functionTy _ _ => true
  | _ => false

/-- `ast::Type::IsBoolType` (the native `bool`). -/
def Ty.IsBoolType : Ty → Bool
  | .builtin .Bool => true
  | _ => false

/-- `ast::Type::IsStringType`. -/
def Ty.IsStringType : Ty → Bool
  | .stringTy => true
  | _ => false

/-- Helper in `sema_builtin.cpp`'s anonymous namespace:
`IsPointerToSpecificBuiltin(type, kind)`. -/
def IsPointerToSpecificBuiltin (t : Ty) (k : BuiltinKind) : Bool :=
  match t.GetPointeeType with
  | some pointee => pointee.IsSpecificBuiltin k
  | none => false

/-! ## Call arguments and checker outcomes -/

/-- A resolved call argument: its type, and whether the argument expression
is a string literal (`Expr::IsStringLiteral`, used by `TableIterInit`). -/
structure Arg where
  ty : Ty
  isStringLit : Bool

/-- A plain (non-literal) argument of a given type. -/
def arg (t : Ty) : Arg := ⟨t, false⟩

/-- The outcome of one `Sema::CheckBuiltin...` run on one call.

  * `ok t` — the checker ran to completion and executed `call->set_type(t)`,
    reporting no diagnostic;
  * `err` — a failure path ran: the source reports exactly one diagnostic
    (`error_reporter()->Report` / `ReportIncorrectCallArg`) and returns,
    leaving the call's type unresolved (every failure path in
    `sema_builtin.cpp` reports once and returns immediately);
  * `oob` — the checker read a call argument past the end of the argument
    list (undefined behavior in the C++ source). -/
inductive Outcome where
  | ok (t : Ty)
  | err
  | oob

/-- Modelled from the spec: `Sema::CheckArgCount(call, n)` is declared
outside `src/`; per the §4.1/§7 error discipline it reports one
`MismatchedArgCount` diagnostic and fails when the argument count differs
from `n`, and succeeds silently otherwise.  Returns true exactly when the
count matches (matching every use site in `sema_builtin.cpp`). -/
def CheckArgCount (args : List Arg) (n : Nat) : Bool :=
  args.length == n

/-- Modelled from the spec: `Sema::CheckArgCountAtLeast(call, n)`, the
at-least variant of `CheckArgCount`. -/
def CheckArgCountAtLeast (args : List Arg) (n : Nat) : Bool :=
  n ≤ args.length

/-! ## `Sema::CheckBuiltinIndexIteratorInit` (sema_builtin.cpp:1336) -/

/-- Embedding of `Sema::CheckBuiltinIndexIteratorInit`.  The source first
runs `CheckArgCount(call, 2)`, then checks argument 0 against
`*IndexIterator`, argument 1 against the string type, and argument 2
against `*ExecutionContext`, finally resolving the call to `Nil`.  Reading
argument 2 of a two-argument call is an out-of-bounds access in the source;
it is surfaced here as `Outcome.oob`. -/
def CheckBuiltinIndexIteratorInit (args : List Arg) : Outcome :=
  if !CheckArgCount args 2 then .err
  else
    match args[0]? with
    | none => .oob
    | some a0 =>
      if !IsPointerToSpecificBuiltin a0.ty .IndexIterator then .err
      else
        match args[1]? with
        | none => .oob
        | some a1 =>
          if !a1.ty.IsStringType then .err
          else
            match args[2]? with
            | none => .oob
            | some a2 =>
              if !IsPointerToSpecificBuiltin a2.ty .ExecutionContext then .err
              else .ok (.builtin .Nil)

/-! ## `Sema::CheckBuiltinTableIterCall` (sema_builtin.cpp:771) -/

/-- The four table-iteration builtins dispatched to
`Sema::CheckBuiltinTableIterCall`. -/
inductive TableIterBuiltin where
  | tableIterInit | tableIterAdvance | tableIterGetPCI | tableIterClose
  deriving DecidableEq, Repr

/-- Embedding of `Sema::CheckBuiltinTableIterCall`.  The source reads
`call_args[0]` with no argument-count guard (out of bounds when the call
has no arguments), requires it to be `*TableVectorIterator`, then switches
on the builtin: `TableIterInit` checks `CheckArgCount(call, 3)`, a
string-literal table name and a `*ExecutionContext`; `TableIterAdvance`,
`TableIterGetPCI` and `TableIterClose` immediately set the result type
(`Bool`, `*ProjectedColumnsIterator`, `Nil`) with no further checks. -/
def CheckBuiltinTableIterCall (builtin : TableIterBuiltin) (args : List Arg) :
    Outcome :=
  match args[0]? with
  | none => .oob
  | some a0 =>
    if !IsPointerToSpecificBuiltin a0.ty .TableVectorIterator then .err
    else
      match builtin with
      | .tableIterInit =>
        if !CheckArgCount args 3 then .err
        else
          match args[1]? with
          | none => .oob
          | some a1 =>
            if !a1.isStringLit then .err
            else
              match args[2]? with
              | none => .oob
              | some a2 =>
                if !IsPointerToSpecificBuiltin a2.ty .ExecutionContext then .err
                else .ok (.builtin .Nil)
      | .tableIterAdvance => .ok (.builtin .Bool)
      | .tableIterGetPCI => .ok (.pointerTo (.builtin .ProjectedColumnsIterator))
      | .tableIterClose => .ok (.builtin .Nil)

/-! ## `Sema::CheckBuiltinAggHashTableCall`, `AggHashTableProcessBatch` case
(sema_builtin.cpp:113, case at line 182) -/

/-- Embedding of the `AggHashTableProcessBatch` path through
`Sema::CheckBuiltinAggHashTableCall`.  The source runs
`CheckArgCountAtLeast(call, 1)`, requires argument 0 to be
`*AggregationHashTable`, then in the `ProcessBatch` case runs
`CheckArgCount(call, 7)` and checks argument 1 with

  `const auto pci_kind = ast::BuiltinType::Uint64;`
  `if (!args[1]->type()->IsPointerType() ||`
  `    IsPointerToSpecificBuiltin(args[1]->type()->GetPointeeType(), pci_kind))`

(reporting when the condition holds; note the kind is `Uint64`, not
`ProjectedColumnsIterator`, and the inner test is not negated), then
requires arguments 2–5 to be function-typed and argument 6 to be native
bool, resolving the call to `Nil`. -/
def CheckBuiltinAggHashTableProcessBatch (args : List Arg) : Outcome :=
  if !CheckArgCountAtLeast args 1 then .err
  else
    match args[0]? with
    | none => .oob
    | some a0 =>
      if !IsPointerToSpecificBuiltin a0.ty .AggregationHashTable then .err
      else
        if !CheckArgCount args 7 then .err
        else
          match args[1]? with
          | none => .oob
          | some a1 =>
            -- `!IsPointerType || IsPointerToSpecificBuiltin(GetPointeeType, Uint64)`
            -- with C++ short-circuit: the pointee is only taken when a1 is
            -- a pointer.
            let report :=
              match a1.ty with
              | .pointerTo pointee => IsPointerToSpecificBuiltin pointee .Uint64
              | _ => true
            if report then .err
            else
              match args[2]?, args[3]?, args[4]?, args[5]? with
              | some a2, some a3, some a4, some a5 =>
                if !(a2.ty.IsFunctionType && a3.ty.IsFunctionType &&
                     a4.ty.IsFunctionType && a5.ty.IsFunctionType) then .err
                else
                  match args[6]? with
                  | none => .oob
                  | some a6 =>
                    if !a6.ty.IsBoolType then .err
                    else .ok (.builtin .Nil)
              | _, _, _, _ => .oob

/-! ## Theorems for the semantic-analyzer claims -/

/-- C5: the claim says `IndexIteratorInit` is accepted exactly on three
arguments `(*IndexIterator, string, *ExecutionContext)` with result `nil`.
The source instead runs `CheckArgCount(call, 2)`: the well-formed
three-argument call of the claim is rejected with one arity diagnostic and
left unresolved, and a two-argument call goes on to read `arguments()[2]`
out of bounds.  This theorem evaluates the embedded checker at both
inputs. -/
theorem c5_indexIteratorInit_arity_bug :
    CheckBuiltinIndexIteratorInit
        [arg (.pointerTo (.builtin .IndexIterator)), arg .stringTy,
         arg (.pointerTo (.builtin .ExecutionContext))] = .err
      ∧ CheckBuiltinIndexIteratorInit
        [arg (.pointerTo (.builtin .IndexIterator)), arg .stringTy] = .oob :=
  ⟨rfl, rfl⟩

/-- C6: the claim says a seven-argument `AggHashTableProcessBatch` call
whose second argument is not `**ProjectedColumnsIterator` is rejected.
The source's condition uses kind `Uint64` and omits the negation, so it
accepts any pointer whose pointee is not `*Uint64`: a call with second
argument `*Uint8` resolves to `nil` with no diagnostic (first conjunct,
the failing input), the only pointer shape actually rejected is
`**Uint64` (second conjunct), and `**ProjectedColumnsIterator` is also
accepted (third conjunct). -/
theorem c6_aggHashTableProcessBatch_pci_check_bug :
    CheckBuiltinAggHashTableProcessBatch
        [arg (.pointerTo (.builtin .AggregationHashTable)),
         arg (.pointerTo (.builtin .Uint8)),
         arg (.functionTy [] (.builtin .Nil)), arg (.functionTy [] (.builtin .Nil)),
         arg (.functionTy [] (.builtin .Nil)), arg (.functionTy [] (.builtin .Nil)),
         arg (.builtin .Bool)] = .ok (.builtin .Nil)
      ∧ CheckBuiltinAggHashTableProcessBatch
        [arg (.pointerTo (.builtin .AggregationHashTable)),
         arg (.pointerTo (.pointerTo (.builtin .Uint64))),
         arg (.functionTy [] (.builtin .Nil)), arg (.functionTy [] (.builtin .Nil)),
         arg (.functionTy [] (.builtin .Nil)), arg (.functionTy [] (.builtin .Nil)),
         arg (.builtin .Bool)] = .err
      ∧ CheckBuiltinAggHashTableProcessBatch
        [arg (.pointerTo (.builtin .AggregationHashTable)),
         arg (.pointerTo (.pointerTo (.builtin .ProjectedColumnsIterator))),
         arg (.functionTy [] (.builtin .Nil)), arg (.functionTy [] (.builtin .Nil)),
         arg (.functionTy [] (.builtin .Nil)), arg (.functionTy [] (.builtin .Nil)),
         arg (.builtin .Bool)] = .ok (.builtin .Nil) :=
  ⟨rfl, rfl, rfl⟩

/-- C7: the claim says every `TableIterAdvance` call whose argument list is
not exactly one `*TableVectorIterator` gets exactly one diagnostic and
stays unresolved.  The source checks only argument 0 and never the arity:
a call with one good argument resolves to `bool` (first conjunct, as
claimed), but a call with a trailing extra argument also resolves to
`bool` with no diagnostic (second conjunct, the failing input), a
zero-argument call reads `call_args[0]` out of bounds instead of being
diagnosed (third conjunct), and only a wrong-typed first argument is
diagnosed (fourth conjunct). -/
theorem c7_tableIterAdvance_arity_bug :
    CheckBuiltinTableIterCall .tableIterAdvance
        [arg (.pointerTo (.builtin .TableVectorIterator))] = .ok (.builtin .Bool)
      ∧ CheckBuiltinTableIterCall .tableIterAdvance
        [arg (.pointerTo (.builtin .TableVectorIterator)), arg (.builtin .Bool)]
          = .ok (.builtin .Bool)
      ∧ CheckBuiltinTableIterCall .tableIterAdvance [] = .oob
      ∧ CheckBuiltinTableIterCall .tableIterAdvance [arg (.builtin .Int32)] = .err :=
  ⟨rfl, rfl, rfl, rfl⟩

/-! ## Pipeline (src/execution/compiler/pipeline.cpp) -/

/-- The pipeline state: the ordered translator list `pipeline_` and the
cursor `pipeline_index_`.  Translators are kept abstract (`α`). -/
structure Pipeline (α : Type) where
  pipeline : List α
  pipeline_index : Nat

/-- `Pipeline::Add(translator, parallelism)`: `pipeline_.push_back(translator)`.
The `Parallelism` parameter is ignored by the source body and omitted here. -/
def Pipeline.Add (p : Pipeline α) (translator : α) : Pipeline α :=
  { p with pipeline := p.pipeline ++ [translator] }

/-- `Pipeline::NextStep()`: when `pipeline_index_ > 0`, return
`pipeline_[--pipeline_index_]`; else return `nullptr` (here `none`).  The
vector read is in range whenever `pipeline_index_ ≤ pipeline_.size()`; an
out-of-range read (undefined behavior in C++) would surface as `none`,
which the theorems below show never happens under the initialisation
invariant. -/
def Pipeline.NextStep (p : Pipeline α) : Option α × Pipeline α :=
  if 0 < p.pipeline_index then
    (p.pipeline[p.pipeline_index - 1]?,
     { p with pipeline_index := p.pipeline_index - 1 })
  else
    (none, p)

/-- An empty pipeline, before any `Add`. -/
def Pipeline.empty {α : Type} : Pipeline α := ⟨[], 0⟩

/-- The pipeline built by the call sequence `Add(t1), ..., Add(tn)`. -/
def buildPipeline (ts : List α) : Pipeline α :=
  ts.foldl Pipeline.Add Pipeline.empty

/-- Modelled from the spec: the initialisation of `pipeline_index_` lives in
`pipeline.h`, which is not under `src/`.  Per the spec, `NextStep` consumes
the translator list from the tail first, so consumption begins with
`pipeline_index_ = pipeline_.size()`. -/
def Pipeline.beginConsume (p : Pipeline α) : Pipeline α :=
  { p with pipeline_index := p.pipeline.length }

/-- The results of the first `k` successive `NextStep` calls. -/
def Pipeline.steps : Pipeline α → Nat → List (Option α)
  | _, 0 => []
  | p, k + 1 =>
    let r := p.NextStep
    r.1 :: r.2.steps k

theorem Pipeline.steps_succ {α : Type} (p : Pipeline α) (k : Nat) :
    p.steps (k + 1) = (p.NextStep).1 :: Pipeline.steps (p.NextStep).2 k := rfl

theorem Pipeline.nextStep_pos {α : Type} (ts : List α) (i : Nat) :
    Pipeline.NextStep ⟨ts, i + 1⟩ = (ts[i]?, ⟨ts, i⟩) := by
  simp [Pipeline.NextStep]

theorem Pipeline.steps_index_zero {α : Type} (ts : List α) (k : Nat) :
    Pipeline.steps ⟨ts, 0⟩ k = List.replicate k none := by
  induction k with
  | zero => rfl
  | succ k ih =>
    rw [Pipeline.steps_succ]
    have hns : Pipeline.NextStep (⟨ts, 0⟩ : Pipeline α) = (none, ⟨ts, 0⟩) := by
      simp [Pipeline.NextStep]
    rw [hns]
    simp [ih, List.replicate]

theorem Pipeline.steps_spec {α : Type} (ts : List α) :
    ∀ i, i ≤ ts.length → ∀ m,
      Pipeline.steps ⟨ts, i⟩ (i + m)
        = ((ts.take i).reverse.map some) ++ List.replicate m none := by
  intro i
  induction i with
  | zero =>
    intro _ m
    simpa using Pipeline.steps_index_zero ts m
  | succ i ih =>
    intro h m
    have hi : i < ts.length := Nat.lt_of_succ_le h
    have hstep : i + 1 + m = (i + m) + 1 := by omega
    rw [hstep, Pipeline.steps_succ, Pipeline.nextStep_pos]
    have hget : ts[i]? = some (ts.get ⟨i, hi⟩) := by
      simp [List.getElem?_eq_getElem hi]
    show ts[i]? :: Pipeline.steps ⟨ts, i⟩ (i + m) = _
    rw [hget, ih (Nat.le_of_lt hi) m]
    have htake : ts.take (i + 1) = ts.take i ++ [ts.get ⟨i, hi⟩] := by
      rw [← List.take_concat_get' ts i hi]
      simp
    rw [htake]
    simp only [List.reverse_append, List.reverse_cons, List.reverse_nil,
      List.nil_append, List.singleton_append, List.map_cons, List.cons_append,
      List.get_eq_getElem]

theorem buildPipeline_state {α : Type} (ts : List α) :
    ∀ p : Pipeline α,
      (ts.foldl Pipeline.Add p).pipeline = p.pipeline ++ ts
        ∧ (ts.foldl Pipeline.Add p).pipeline_index = p.pipeline_index := by
  induction ts with
  | nil => intro p; simp
  | cons t ts ih =>
    intro p
    have := ih (p.Add t)
    simpa [Pipeline.Add] using this

/-- C9: for the pipeline built by `Add(t1), ..., Add(tn)`, successive
`NextStep` calls return the translators from the tail first —
`tn, tn-1, ..., t1` — and then `nullptr` on every further call: the first
`n + m` calls return exactly `ts.reverse` (each wrapped in `some`) followed
by `m` times `none`. -/
theorem c9_pipeline_nextStep_tail_first {α : Type} (ts : List α) (m : Nat) :
    ((buildPipeline ts).beginConsume).steps (ts.length + m)
      = ts.reverse.map some ++ List.replicate m none := by
  have hb := buildPipeline_state ts (Pipeline.empty)
  have hpipe : (buildPipeline ts).pipeline = ts := by
    simpa [buildPipeline, Pipeline.empty] using hb.1
  have hstate : (buildPipeline ts).beginConsume = ⟨ts, ts.length⟩ := by
    cases hbp : buildPipeline ts with
    | mk pl idx =>
      rw [hbp] at hpipe
      simp at hpipe
      simp [Pipeline.beginConsume, hpipe]
  rw [hstate]
  simpa using Pipeline.steps_spec ts ts.length (Nat.le_refl _) m

/-! ## Output checkers (test/include/execution/compiler/output_checker.h) -/

/-- `sql::Integer`: a nullable integer value (`is_null`, `val`). -/
structure SqlInt where
  is_null : Bool
  val : Int
  deriving DecidableEq, Repr

/-- `vals[col_idx_]`: the source indexes the row vector unchecked; every
input in this development has rows long enough that the default is never
read. -/
def getCol (row : List SqlInt) (c : Nat) : SqlInt :=
  row.getD c ⟨true, 0⟩

/-- The state of a `SingleIntSortChecker`: the copied previous value, the
column index, and the conjunction of every gtest `EXPECT_TRUE` issued so
far. -/
structure SingleIntSortChecker where
  prev_val : SqlInt
  col_idx : Nat
  expects_ok : Bool
  deriving DecidableEq, Repr

/-- The source constructor
`SingleIntSortChecker(uint32_t col_idx) : col_idx_{0} {}`: the member is
initialised to `0`, ignoring the constructor argument; `prev_val_` starts
as the null integer `{true, 0}`. -/
def SingleIntSortChecker.construct (_col_idx : Nat) : SingleIntSortChecker :=
  ⟨⟨true, 0⟩, 0, true⟩

/-- Modelled from the spec: the intended constructor, which stores the
`col_idx` argument in the member (spec §4.4 and the §9 note on the
initializer bug). -/
def SingleIntSortChecker.constructIntended (col_idx : Nat) : SingleIntSortChecker :=
  ⟨⟨true, 0⟩, col_idx, true⟩

/-- One row of `SingleIntSortChecker::ProcessBatch`: a null value passes
only if the previous value was null; a non-null value passes if the
previous was null or not larger; then the value is copied into
`prev_val_`. -/
def SingleIntSortChecker.processRow (ck : SingleIntSortChecker)
    (row : List SqlInt) : SingleIntSortChecker :=
  let v := getCol row ck.col_idx
  let pass :=
    if v.is_null then ck.prev_val.is_null
    else ck.prev_val.is_null || decide (v.val ≥ ck.prev_val.val)
  ⟨v, ck.col_idx, ck.expects_ok && pass⟩

/-- `SingleIntSortChecker::ProcessBatch`: fold `processRow` over the rows
of the batch in arrival order. -/
def SingleIntSortChecker.ProcessBatch (ck : SingleIntSortChecker)
    (rows : List (List SqlInt)) : SingleIntSortChecker :=
  rows.foldl SingleIntSortChecker.processRow ck

/-- C8: the claim says a `SingleIntSortChecker` constructed with `col_idx`
checks column `col_idx`.  The source initialises the member to `0`,
ignoring the argument: on a batch whose column 1 is strictly decreasing
(`3` then `2`) but whose column 0 is increasing, the checker constructed
with `col_idx = 1` raises no expectation failure (first conjunct, the
failing input), while the spec-intended checker does (second conjunct);
the constructed member is `0` whatever the argument (third conjunct). -/
theorem c8_singleIntSortChecker_colIdx_bug :
    ((SingleIntSortChecker.construct 1).ProcessBatch
        [[⟨false, 5⟩, ⟨false, 3⟩], [⟨false, 7⟩, ⟨false, 2⟩]]).expects_ok = true
      ∧ ((SingleIntSortChecker.constructIntended 1).ProcessBatch
        [[⟨false, 5⟩, ⟨false, 3⟩], [⟨false, 7⟩, ⟨false, 2⟩]]).expects_ok = false
      ∧ (SingleIntSortChecker.construct 1).col_idx = 0 := by
  refine ⟨?_, ?_, rfl⟩ <;> decide

/-! ## Namespace handle (src/catalog/namespace_handle.cpp) -/

/-- The search value passed to `SqlTableRW::FindRow`: an integer for the
oid column, a C string for the name column. -/
inductive SearchKey where
  | intKey (i : Int)
  | strKey (s : String)

/-- The slice of `catalog::SqlTableRW` that `NamespaceHandle` consumes
(contracts per spec §6; `Row` abstracts `storage::ProjectedRow *`):
`FindRow(txn, col, value)` and `GetIntColInRow(col, row)`. -/
structure SqlTableRW (Row : Type) where
  FindRow : Nat → SearchKey → Option Row
  GetIntColInRow : Nat → Row → Int

/-- `NamespaceHandle::NamespaceEntry`: the namespace oid plus the borrowed
projected row. -/
structure NamespaceEntry (Row : Type) where
  oid : Int
  row : Row

/-- `NamespaceHandle::GetNamespaceEntry(txn, oid)`: `FindRow` by the oid
value on column 0; `nullptr` when no row is found, else an entry wrapping
the oid and the row. -/
def GetNamespaceEntryByOid (tbl : SqlTableRW Row) (oid : Int) :
    Option (NamespaceEntry Row) :=
  match tbl.FindRow 0 (.intKey oid) with
  | none => none
  | some p_row => some ⟨oid, p_row⟩

/-- `NamespaceHandle::GetNamespaceEntry(txn, name)`: `FindRow` by the name
on column 1; `nullptr` when no row is found, else the oid is recovered via
`GetIntColInRow(0, p_row)`. -/
def GetNamespaceEntryByName (tbl : SqlTableRW Row) (name : String) :
    Option (NamespaceEntry Row) :=
  match tbl.FindRow 1 (.strKey name) with
  | none => none
  | some p_row => some ⟨tbl.GetIntColInRow 0 p_row, p_row⟩

/-- C10: `GetNamespaceEntry` returns `nullptr` precisely when the
underlying `FindRow` lookup (by oid on column 0, or by name on column 1)
finds no matching row; and when the name-based lookup finds a row, the
returned entry's namespace oid is the integer read from column 0 of that
row. -/
theorem c10_getNamespaceEntry_lookup {Row : Type} (tbl : SqlTableRW Row)
    (oid : Int) (name : String) :
    (GetNamespaceEntryByOid tbl oid = none ↔ tbl.FindRow 0 (.intKey oid) = none)
    ∧ (GetNamespaceEntryByName tbl name = none ↔ tbl.FindRow 1 (.strKey name) = none)
    ∧ (∀ r, tbl.FindRow 1 (.strKey name) = some r →
        GetNamespaceEntryByName tbl name = some ⟨tbl.GetIntColInRow 0 r, r⟩) := by
  refine ⟨?_, ?_, ?_⟩
  · unfold GetNamespaceEntryByOid
    cases h : tbl.FindRow 0 (.intKey oid) <;> simp
  · unfold GetNamespaceEntryByName
    cases h : tbl.FindRow 1 (.strKey name) <;> simp
  · intro r hr
    unfold GetNamespaceEntryByName
    rw [hr]

/-- A concrete two-column namespace store used to witness `c10`. -/
def nsTable0 : SqlTableRW Int :=
  ⟨fun col _ => if col = 1 then some 3 else none, fun _ r => r⟩

theorem c10_getNamespaceEntry_lookup_witness :
    GetNamespaceEntryByName nsTable0 "public" = some ⟨3, 3⟩ :=
  (c10_getNamespaceEntry_lookup nsTable0 0 "public").2.2 3 rfl

/-! ## Online index build coordinator
(`IndexManager` in sema_builtin.cpp:1674-1850) -/

/-- A `pg_index` catalog entry, as inserted by `IndexHandle::AddEntry`. -/
structure IndexEntry where
  index_oid : Nat
  table_oid : Nat
  indnatts : Nat
  indnkeyatts : Nat
  indisunique : Bool
  indisprimary : Bool
  indisvalid : Bool
  indisready : Bool
  indislive : Bool
  deriving DecidableEq, Repr

/-- `make_index_id(db_oid, ns_oid, index_oid)`. -/
abbrev IndexId := Nat × Nat × Nat

/-- The shared state the coordinator mutates: the index catalog entries,
the per-index building flags (latest write first), and the physical index
containers currently alive (by index oid). -/
structure SysState where
  entries : List IndexEntry
  building : List (IndexId × Bool)
  indexObjs : List Nat
  deriving DecidableEq, Repr

/-- `IndexManager::SetIndexBuildingFlag(index_id, b)`: record the new value
(latest write shadows older ones). -/
def SetIndexBuildingFlag (building : List (IndexId × Bool)) (id : IndexId)
    (b : Bool) : List (IndexId × Bool) :=
  (id, b) :: building

/-- Read the current building flag of an index. -/
def getBuildingFlag (building : List (IndexId × Bool)) (id : IndexId) :
    Option Bool :=
  (building.find? fun p => p.1 == id).map fun p => p.2

/-- The boolean `pg_index` columns the coordinator writes through
`IndexHandle::SetEntryColumn` (the source names them by the strings
`"indisready"` and `"indisvalid"`). -/
inductive BoolCol where
  | indisready
  | indisvalid
  deriving DecidableEq, Repr

/-- The per-entry effect of `IndexHandle::SetEntryColumn` for the boolean
columns touched by the coordinator. -/
def applyBoolColumn (e : IndexEntry) (col : BoolCol) (b : Bool) : IndexEntry :=
  match col with
  | .indisready => { e with indisready := b }
  | .indisvalid => { e with indisvalid := b }

/-- `IndexHandle::SetEntryColumn(txn, index_oid, col, bool)`: update the
column of the entry with the given oid. -/
def SetEntryColumn (entries : List IndexEntry) (oid : Nat) (col : BoolCol)
    (b : Bool) : List IndexEntry :=
  entries.map fun e => if e.index_oid == oid then applyBoolColumn e col b else e

/-- Look up the catalog entry of an index, as `IndexHandle::GetIndexEntry`. -/
def entryOf (st : SysState) (oid : Nat) : Option IndexEntry :=
  st.entries.find? fun e => e.index_oid == oid

/-- Observable events of one coordinator run, in program order.
`pollOldest v` is one iteration of the quiescence busy-wait reading
`OldestTransactionStartTime() = v`. -/
inductive Event where
  | beginTxn (n : Nat)
  | abortTxn (n : Nat)
  | commitTxn (n : Nat) (ts : Nat)
  | createIndexObj (oid : Nat)
  | destroyIndexObj (oid : Nat)
  | addEntry (e : IndexEntry)
  | deleteEntry (oid : Nat)
  | setBuilding (id : IndexId) (b : Bool)
  | setColumn (oid : Nat) (col : BoolCol) (b : Bool)
  | pollOldest (v : Nat)
  | insertKey (k : Nat)
  deriving DecidableEq, Repr

/-- The busy-wait `while (txn_mgr->OldestTransactionStartTime() < commit_time) {}`.
`oldest i` is the value read by the `i`-th poll; the loop returns the index
of the first poll at which the condition fails, or `none` when the fuel is
exhausted (the loop is still spinning). -/
def spinWait (oldest : Nat → Nat) (commit_ts : Nat) : Nat → Nat → Option Nat
  | _, 0 => none
  | k, fuel + 1 =>
    if oldest k < commit_ts then spinWait oldest commit_ts (k + 1) fuel
    else some k

/-- The scan loop of `IndexManager::PopulateIndex`: iterate the table
slots; a `none` slot is one where `SqlTable::Select` found nothing visible
and is skipped; a `some k` slot yields the key-tuple pair `k`, inserted via
`Index::Insert` / `InsertUnique` (modelled by the oracle `insertOk`, a
function of the key and the keys already inserted); on the first failed
insert the loop breaks with `success = false`.  Returns the success flag
and the keys inserted, in order. -/
def populateLoop (insertOk : κ → List κ → Bool) :
    List (Option κ) → List κ → Bool × List κ
  | [], inserted => (true, inserted)
  | none :: rest, inserted => populateLoop insertOk rest inserted
  | some k :: rest, inserted =>
    if insertOk k inserted then populateLoop insertOk rest (inserted ++ [k])
    else (false, inserted)

/-- `IndexManager::PopulateIndex(txn, sql_table, index, unique_index)`:
run the scan loop over the table with an empty index. -/
def PopulateIndex (rows : List (Option κ)) (insertOk : κ → List κ → Bool) :
    Bool × List κ :=
  populateLoop insertOk rows []

/-- The external collaborators of `CreateConcurrently`, per their contracts
in spec §6: whether `Catalog::GetUserTable` finds the user table, whether
`GetEmptyIndex` succeeds, the oid handed out by `GetNextOid`, the
timestamps returned by the two commits, the successive
`OldestTransactionStartTime` reads, and the base table / index-insert
oracle consumed by `PopulateIndex` (keys are `Nat`). -/
structure CreateEnv where
  tableExists : Bool
  emptyIndexOk : Bool
  nextOid : Nat
  commitTs1 : Nat
  commitTs2 : Nat
  oldestSeq : Nat → Nat
  rows : List (Option Nat)
  insertOk : Nat → List Nat → Bool

/-- `IndexManager::CreateConcurrently`.  T1: begin; abort when the user
table is missing or the empty index cannot be built; otherwise create the
index container, `AddEntry` with
`unique=<caller>, primary=false, valid=false, ready=true, live=false`,
`SetIndexBuildingFlag(index_id, false)`, commit at `commitTs1`.  Then spin
until `OldestTransactionStartTime() >= commitTs1` (`none` when the fuel
runs out, i.e. the loop is still spinning).  T2: begin with the pre-action
`building := true`, flip `indisready := false`, set `indisvalid` to the
`PopulateIndex` result, commit at `commitTs2`.  The final
`SetIndexBuildingFlag(index_id, false)` is the commit hook — modelled from
the spec, §4.6: the hook itself is registered outside `src/`. -/
def CreateConcurrently (db_oid ns_oid table_oid : Nat) (unique_index : Bool)
    (indnatts indnkeyatts : Nat) (env : CreateEnv) (fuel : Nat)
    (st : SysState) : Option (SysState × List Event) :=
  if !env.tableExists then
    some (st, [.beginTxn 1, .abortTxn 1])
  else if !env.emptyIndexOk then
    some (st, [.beginTxn 1, .abortTxn 1])
  else
    let index_oid := env.nextOid
    let entry : IndexEntry :=
      ⟨index_oid, table_oid, indnatts, indnkeyatts, unique_index,
       false, false, true, false⟩
    let index_id : IndexId := (db_oid, ns_oid, index_oid)
    let st1 : SysState :=
      { entries := st.entries ++ [entry]
        building := SetIndexBuildingFlag st.building index_id false
        indexObjs := st.indexObjs ++ [index_oid] }
    match spinWait env.oldestSeq env.commitTs1 0 fuel with
    | none => none
    | some kq =>
      let polls := (List.range (kq + 1)).map fun i =>
        Event.pollOldest (env.oldestSeq i)
      let result := PopulateIndex env.rows env.insertOk
      let st2 : SysState :=
        { entries :=
            SetEntryColumn
              (SetEntryColumn st1.entries index_oid BoolCol.indisready false)
              index_oid BoolCol.indisvalid result.1
          building :=
            SetIndexBuildingFlag
              (SetIndexBuildingFlag st1.building index_id true) index_id false
          indexObjs := st1.indexObjs }
      some (st2,
        [Event.beginTxn 1, Event.createIndexObj index_oid, Event.addEntry entry,
         Event.setBuilding index_id false, Event.commitTxn 1 env.commitTs1]
        ++ polls
        ++ [Event.beginTxn 2, Event.setBuilding index_id true,
            Event.setColumn index_oid BoolCol.indisready false]
        ++ result.2.map Event.insertKey
        ++ [Event.setColumn index_oid BoolCol.indisvalid result.1,
            Event.commitTxn 2 env.commitTs2,
            Event.setBuilding index_id false])

/-- The external collaborators of `IndexManager::Drop`. -/
structure DropEnv where
  tableExists : Bool
  commitTs : Nat
  oldestSeq : Nat → Nat

/-- `IndexManager::Drop`: begin (labelled transaction 3); abort when the
user table is missing; otherwise `GetIndexEntry` + `DeleteEntry`, commit,
spin until quiescent, then destroy the physical index container.  A run
where the entry is missing dereferences a null pointer in the source and
is left undefined (`none`), as is a run whose spin fuel is exhausted. -/
def Drop (db_oid ns_oid table_oid index_oid : Nat) (env : DropEnv)
    (fuel : Nat) (st : SysState) : Option (SysState × List Event) :=
  if !env.tableExists then
    some (st, [.beginTxn 3, .abortTxn 3])
  else
    match st.entries.find? (fun e => e.index_oid == index_oid) with
    | none => none
    | some _ =>
      let st1 : SysState :=
        { st with entries := st.entries.filter fun e => !(e.index_oid == index_oid) }
      match spinWait env.oldestSeq env.commitTs 0 fuel with
      | none => none
      | some kq =>
        let polls := (List.range (kq + 1)).map fun i =>
          Event.pollOldest (env.oldestSeq i)
        let st2 : SysState :=
          { st1 with indexObjs := st1.indexObjs.filter fun o => !(o == index_oid) }
        some (st2,
          [Event.beginTxn 3, Event.deleteEntry index_oid,
           Event.commitTxn 3 env.commitTs]
          ++ polls ++ [Event.destroyIndexObj index_oid])

/-! ## Quiescence-barrier lemma -/

theorem spinWait_spec (oldest : Nat → Nat) (ts : Nat) :
    ∀ fuel k j, spinWait oldest ts k fuel = some j →
      k ≤ j ∧ ts ≤ oldest j ∧ ∀ i, k ≤ i → i < j → oldest i < ts := by
  intro fuel
  induction fuel with
  | zero => intro k j h; simp [spinWait] at h
  | succ fuel ih =>
    intro k j h
    simp only [spinWait] at h
    by_cases hc : oldest k < ts
    · rw [if_pos hc] at h
      obtain ⟨hkj, hts, hall⟩ := ih (k + 1) j h
      refine ⟨by omega, hts, fun i hki hij => ?_⟩
      rcases Nat.eq_or_lt_of_le hki with heq | hlt
      · rw [← heq]; exact hc
      · exact hall i hlt hij
    · rw [if_neg hc] at h
      have hj : j = k := by
        have := h; injection this with h2; omega
      subst hj
      exact ⟨Nat.le_refl _, Nat.le_of_not_lt hc,
        fun i hki hij => absurd (Nat.lt_of_le_of_lt hki hij) (Nat.lt_irrefl _)⟩

/-- C1: in every completed `CreateConcurrently` run on an existing table,
transaction T1 inserts the index catalog entry with `indisready = true`,
`indisvalid = false`, `indisprimary = false`, `indislive = false` and
`indisunique` equal to the caller's unique flag, sets the building flag to
false, and commits at `commitTs1`; all events between T1's commit and T2's
begin are polls of `OldestTransactionStartTime`, every poll before the
last reads a value `< commitTs1` (the coordinator spins), and the last
poll reads a value `≥ commitTs1` — so T2 does not begin until
`oldest_active_start_ts() ≥ commit_ts(T1)`. -/
theorem c1_createConcurrently_t1_then_quiesce
    (db_oid ns_oid table_oid : Nat) (unique_index : Bool)
    (indnatts indnkeyatts : Nat) (env : CreateEnv) (fuel : Nat)
    (st st' : SysState) (tr : List Event)
    (hTable : env.tableExists = true) (hIdx : env.emptyIndexOk = true)
    (hRun : CreateConcurrently db_oid ns_oid table_oid unique_index
      indnatts indnkeyatts env fuel st = some (st', tr)) :
    ∃ (e : IndexEntry) (k : Nat) (rest : List Event),
      e.indisready = true ∧ e.indisvalid = false ∧ e.indisprimary = false
      ∧ e.indislive = false ∧ e.indisunique = unique_index
      ∧ tr = Event.beginTxn 1 :: Event.createIndexObj e.index_oid
          :: Event.addEntry e
          :: Event.setBuilding (db_oid, ns_oid, e.index_oid) false
          :: Event.commitTxn 1 env.commitTs1
          :: (((List.range (k + 1)).map fun i =>
                Event.pollOldest (env.oldestSeq i))
              ++ Event.beginTxn 2 :: rest)
      ∧ env.commitTs1 ≤ env.oldestSeq k
      ∧ (∀ i, i < k → env.oldestSeq i < env.commitTs1) := by
  unfold CreateConcurrently at hRun
  rw [hTable, hIdx] at hRun
  simp only [Bool.not_true, Bool.false_eq_true, if_false] at hRun
  cases hspin : spinWait env.oldestSeq env.commitTs1 0 fuel with
  | none => rw [hspin] at hRun; exact absurd hRun (by simp)
  | some kq =>
    rw [hspin] at hRun
    obtain ⟨_, hts, hall⟩ := spinWait_spec env.oldestSeq env.commitTs1 fuel 0 kq hspin
    obtain ⟨hst, htr⟩ := Prod.mk.injEq .. ▸ Option.some.injEq .. ▸ hRun
    refine ⟨⟨env.nextOid, table_oid, indnatts, indnkeyatts, unique_index,
      false, false, true, false⟩, kq,
      [Event.setBuilding (db_oid, ns_oid, env.nextOid) true,
       Event.setColumn env.nextOid BoolCol.indisready false]
      ++ (PopulateIndex env.rows env.insertOk).2.map Event.insertKey
      ++ [Event.setColumn env.nextOid BoolCol.indisvalid
            (PopulateIndex env.rows env.insertOk).1,
          Event.commitTxn 2 env.commitTs2,
          Event.setBuilding (db_oid, ns_oid, env.nextOid) false],
      rfl, rfl, rfl, rfl, rfl, ?_, hts, fun i hik => hall i (Nat.zero_le i) hik⟩
    rw [← htr]
    simp

/-- C2: in every completed `CreateConcurrently` run on an existing table
(with the oid handed out by `GetNextOid` fresh, per spec §6), the final
catalog entry of the new index has `indisready = false` and `indisvalid`
equal to the result of `PopulateIndex` over the base table, and the
building flag of the index is false again (reset by the commit hook). -/
theorem SetEntryColumn_append (l1 l2 : List IndexEntry) (oid : Nat)
    (c : BoolCol) (b : Bool) :
    SetEntryColumn (l1 ++ l2) oid c b
      = SetEntryColumn l1 oid c b ++ SetEntryColumn l2 oid c b :=
  List.map_append _ _ _

theorem SetEntryColumn_skip (l : List IndexEntry) (oid : Nat) (c : BoolCol)
    (b : Bool) (h : ∀ e ∈ l, e.index_oid ≠ oid) :
    SetEntryColumn l oid c b = l := by
  unfold SetEntryColumn
  induction l with
  | nil => rfl
  | cons a l ih =>
    have ha : (a.index_oid == oid) = false := by
      simpa using h a (by simp)
    simp only [List.map_cons, ha, Bool.false_eq_true, if_false, List.cons.injEq]
    exact ⟨by simp, ih fun e he => h e (by simp [he])⟩

theorem c2_createConcurrently_final_entry
    (db_oid ns_oid table_oid : Nat) (unique_index : Bool)
    (indnatts indnkeyatts : Nat) (env : CreateEnv) (fuel : Nat)
    (st st' : SysState) (tr : List Event)
    (hTable : env.tableExists = true) (hIdx : env.emptyIndexOk = true)
    (hFresh : ∀ e ∈ st.entries, e.index_oid ≠ env.nextOid)
    (hRun : CreateConcurrently db_oid ns_oid table_oid unique_index
      indnatts indnkeyatts env fuel st = some (st', tr)) :
    ∃ e : IndexEntry,
      entryOf st' env.nextOid = some e
      ∧ e.indisready = false
      ∧ e.indisvalid = (PopulateIndex env.rows env.insertOk).1
      ∧ getBuildingFlag st'.building (db_oid, ns_oid, env.nextOid)
          = some false := by
  unfold CreateConcurrently at hRun
  rw [hTable, hIdx] at hRun
  simp only [Bool.not_true, Bool.false_eq_true, if_false] at hRun
  cases hspin : spinWait env.oldestSeq env.commitTs1 0 fuel with
  | none => rw [hspin] at hRun; exact absurd hRun (by simp)
  | some kq =>
    rw [hspin] at hRun
    have hst : st' =
        { entries :=
            SetEntryColumn
              (SetEntryColumn
                (st.entries ++
                  [⟨env.nextOid, table_oid, indnatts, indnkeyatts, unique_index,
                    false, false, true, false⟩])
                env.nextOid BoolCol.indisready false)
              env.nextOid BoolCol.indisvalid (PopulateIndex env.rows env.insertOk).1
          building :=
            SetIndexBuildingFlag
              (SetIndexBuildingFlag
                (SetIndexBuildingFlag st.building (db_oid, ns_oid, env.nextOid)
                  false)
                (db_oid, ns_oid, env.nextOid) true)
              (db_oid, ns_oid, env.nextOid) false
          indexObjs := st.indexObjs ++ [env.nextOid] } := by
      have := hRun
      simp only [Option.some.injEq, Prod.mk.injEq] at this
      exact this.1.symm
    have hin : SetEntryColumn
          (st.entries ++
            [⟨env.nextOid, table_oid, indnatts, indnkeyatts, unique_index,
              false, false, true, false⟩])
          env.nextOid .indisready false
        = st.entries ++
            [⟨env.nextOid, table_oid, indnatts, indnkeyatts, unique_index,
              false, false, false, false⟩] := by
      rw [SetEntryColumn_append, SetEntryColumn_skip st.entries _ _ _ hFresh]
      simp [SetEntryColumn, applyBoolColumn]
    have hout : SetEntryColumn
          (st.entries ++
            [⟨env.nextOid, table_oid, indnatts, indnkeyatts, unique_index,
              false, false, false, false⟩])
          env.nextOid .indisvalid (PopulateIndex env.rows env.insertOk).1
        = st.entries ++
            [⟨env.nextOid, table_oid, indnatts, indnkeyatts, unique_index,
              false, (PopulateIndex env.rows env.insertOk).1, false, false⟩] := by
      rw [SetEntryColumn_append, SetEntryColumn_skip st.entries _ _ _ hFresh]
      simp [SetEntryColumn, applyBoolColumn]
    have hent : st'.entries =
        st.entries ++
          [⟨env.nextOid, table_oid, indnatts, indnkeyatts, unique_index,
            false, (PopulateIndex env.rows env.insertOk).1, false, false⟩] := by
      rw [hst]
      show SetEntryColumn (SetEntryColumn _ _ _ _) _ _ _ = _
      rw [hin, hout]
    have hnone : st.entries.find? (fun e => e.index_oid == env.nextOid)
        = none := by
      apply List.find?_eq_none.mpr
      intro e he
      simpa using hFresh e he
    refine ⟨⟨env.nextOid, table_oid, indnatts, indnkeyatts, unique_index,
      false, (PopulateIndex env.rows env.insertOk).1, false, false⟩,
      ?_, rfl, rfl, ?_⟩
    · unfold entryOf
      rw [hent, List.find?_append, hnone]
      simp
    · rw [hst]
      simp [getBuildingFlag, SetIndexBuildingFlag]

/-- The scan loop restricted to the visible rows: insert each key in order,
breaking at the first failure. -/
def insertAll (insertOk : κ → List κ → Bool) : List κ → List κ → Bool × List κ
  | [], acc => (true, acc)
  | k :: rest, acc =>
    if insertOk k acc then insertAll insertOk rest (acc ++ [k])
    else (false, acc)

theorem populateLoop_eq_insertAll (insertOk : κ → List κ → Bool) :
    ∀ (rows : List (Option κ)) (acc : List κ),
      populateLoop insertOk rows acc
        = insertAll insertOk (rows.filterMap id) acc := by
  intro rows
  induction rows with
  | nil => intro acc; rfl
  | cons r rest ih =>
    intro acc
    cases r with
    | none => simpa [populateLoop, List.filterMap_cons] using ih acc
    | some k =>
      cases h : insertOk k acc with
      | true => simp [populateLoop, List.filterMap_cons, insertAll, h, ih]
      | false => simp [populateLoop, List.filterMap_cons, insertAll, h]

theorem insertAll_ok (insertOk : κ → List κ → Bool) :
    ∀ (vs acc : List κ),
      (∀ j (hj : j < vs.length),
        insertOk (vs.get ⟨j, hj⟩) (acc ++ vs.take j) = true) →
      insertAll insertOk vs acc = (true, acc ++ vs) := by
  intro vs
  induction vs with
  | nil => intro acc _; simp [insertAll]
  | cons k rest ih =>
    intro acc hall
    have h0 : insertOk k acc = true := by
      have h1 := hall 0 (by simp)
      simpa using h1
    have hrest : ∀ j (hj : j < rest.length),
        insertOk (rest.get ⟨j, hj⟩) ((acc ++ [k]) ++ rest.take j) = true := by
      intro j hj
      have h2 := hall (j + 1) (by simpa using Nat.succ_lt_succ hj)
      simpa [List.append_assoc] using h2
    simp only [insertAll, h0, if_true]
    rw [ih (acc ++ [k]) hrest]
    simp

theorem insertAll_fail (insertOk : κ → List κ → Bool) :
    ∀ (vs acc : List κ) (j : Nat) (hj : j < vs.length),
      insertOk (vs.get ⟨j, hj⟩) (acc ++ vs.take j) = false →
      (∀ i (hi : i < j),
        insertOk (vs.get ⟨i, Nat.lt_trans hi hj⟩) (acc ++ vs.take i) = true) →
      insertAll insertOk vs acc = (false, acc ++ vs.take j) := by
  intro vs
  induction vs with
  | nil => intro acc j hj; exact absurd hj (by simp)
  | cons k rest ih =>
    intro acc j hj hfail hall
    cases j with
    | zero =>
      have h0 : insertOk k acc = false := by simpa using hfail
      simp [insertAll, h0]
    | succ j =>
      have h0 : insertOk k acc = true := by
        have h1 := hall 0 (Nat.succ_pos j)
        simpa using h1
      have hj2 : j < rest.length := by simpa using Nat.lt_of_succ_lt_succ hj
      have hfail2 : insertOk (rest.get ⟨j, hj2⟩)
          ((acc ++ [k]) ++ rest.take j) = false := by
        simpa [List.append_assoc] using hfail
      have hall2 : ∀ i (hi : i < j),
          insertOk (rest.get ⟨i, Nat.lt_trans hi hj2⟩)
            ((acc ++ [k]) ++ rest.take i) = true := by
        intro i hi
        have h3 := hall (i + 1) (Nat.succ_lt_succ hi)
        simpa [List.append_assoc] using h3
      simp only [insertAll, h0, if_true]
      rw [ih (acc ++ [k]) j hj2 hfail2 hall2]
      simp

/-- C3: `PopulateIndex` over a table whose visible rows (the slots where
`Select` finds a tuple) carry the key list `rows.filterMap id`.  When every
insert succeeds it returns `true` having inserted exactly one key per
visible row, in order — so the index receives the table's visible row
count.  When the insert of the `j`-th visible key fails (the first
failure, e.g. the first `InsertUnique` uniqueness violation) the scan
stops there: it returns `false` and the keys inserted are exactly the
first `j` visible keys, none after. -/
theorem c3_populateIndex_count_and_failfast {κ : Type} (rows : List (Option κ))
    (insertOk : κ → List κ → Bool) :
    ((∀ j (hj : j < (rows.filterMap id).length),
        insertOk ((rows.filterMap id).get ⟨j, hj⟩)
          ((rows.filterMap id).take j) = true) →
      PopulateIndex rows insertOk = (true, rows.filterMap id))
    ∧ (∀ j (hj : j < (rows.filterMap id).length),
        insertOk ((rows.filterMap id).get ⟨j, hj⟩)
          ((rows.filterMap id).take j) = false →
        (∀ i (hi : i < j),
          insertOk ((rows.filterMap id).get ⟨i, Nat.lt_trans hi hj⟩)
            ((rows.filterMap id).take i) = true) →
        PopulateIndex rows insertOk = (false, (rows.filterMap id).take j)) := by
  constructor
  · intro hall
    unfold PopulateIndex
    rw [populateLoop_eq_insertAll]
    have h := insertAll_ok insertOk (rows.filterMap id) []
      (by intro j hj; simpa using hall j hj)
    simpa using h
  · intro j hj hfail hall
    unfold PopulateIndex
    rw [populateLoop_eq_insertAll]
    have h := insertAll_fail insertOk (rows.filterMap id) [] j hj
      (by simpa using hfail)
      (by intro i hi; simpa using hall i hi)
    simpa using h

theorem c3_populateIndex_count_and_failfast_witness :
    PopulateIndex [some 1, none, some 2] (fun k acc => !(acc.contains k))
      = (true, [1, 2])
    ∧ PopulateIndex [some 5, some 7] (fun _ _ => false) = (false, []) :=
  ⟨(c3_populateIndex_count_and_failfast [some 1, none, some 2]
      (fun k acc => !(acc.contains k))).1 (by decide),
   (c3_populateIndex_count_and_failfast [some 5, some 7]
      (fun _ _ => false)).2 0 (by decide) (by decide)
      (fun i hi => absurd hi (Nat.not_lt_zero i))⟩

/-- C4: when the user table named in `CreateConcurrently` or `Drop` does
not exist in the catalog, the coordinating transaction begins and aborts,
the shared state is returned unchanged, and the run's trace contains no
entry insertion or deletion and no index-container creation or
destruction. -/
theorem c4_missing_table_aborts
    (db_oid ns_oid table_oid index_oid : Nat) (unique_index : Bool)
    (indnatts indnkeyatts : Nat) (envC : CreateEnv) (envD : DropEnv)
    (fuelC fuelD : Nat) (st : SysState)
    (hC : envC.tableExists = false) (hD : envD.tableExists = false) :
    CreateConcurrently db_oid ns_oid table_oid unique_index indnatts
        indnkeyatts envC fuelC st
      = some (st, [Event.beginTxn 1, Event.abortTxn 1])
    ∧ Drop db_oid ns_oid table_oid index_oid envD fuelD st
      = some (st, [Event.beginTxn 3, Event.abortTxn 3])
    ∧ (∀ e : IndexEntry,
        Event.addEntry e ∉ [Event.beginTxn 1, Event.abortTxn 1])
    ∧ (∀ oid : Nat,
        Event.createIndexObj oid ∉ [Event.beginTxn 1, Event.abortTxn 1]
        ∧ Event.deleteEntry oid ∉ [Event.beginTxn 3, Event.abortTxn 3]
        ∧ Event.destroyIndexObj oid ∉ [Event.beginTxn 3, Event.abortTxn 3]) := by
  refine ⟨?_, ?_, ?_, ?_⟩
  · unfold CreateConcurrently
    rw [hC]
    simp
  · unfold Drop
    rw [hD]
    simp
  · intro e; simp
  · intro oid; refine ⟨by simp, by simp, by simp⟩

/-! ## Concrete runs witnessing the coordinator theorems -/

/-- A concrete environment: the user table exists, the empty index builds,
`GetNextOid` hands out oid 10, T1 commits at timestamp 5, the oldest
active start timestamp advances 0, 3, 6, …, the table has two visible rows
with keys 1 and 2, and inserts succeed unless the key is already in the
index. -/
def createEnv0 : CreateEnv :=
  { tableExists := true
    emptyIndexOk := true
    nextOid := 10
    commitTs1 := 5
    commitTs2 := 9
    oldestSeq := fun i => 3 * i
    rows := [some 1, none, some 2]
    insertOk := fun k acc => !(acc.contains k) }

/-- The same environment with the user table missing. -/
def createEnvNoTable : CreateEnv :=
  { createEnv0 with tableExists := false }

/-- A drop environment with the user table missing. -/
def dropEnvNoTable : DropEnv :=
  ⟨false, 5, fun _ => 0⟩

/-- An empty shared state. -/
def st0 : SysState := ⟨[], [], []⟩

theorem c1_createConcurrently_t1_then_quiesce_witness :
    ∃ (st' : SysState) (tr : List Event),
      CreateConcurrently 1 2 3 true 1 1 createEnv0 10 st0 = some (st', tr)
      ∧ ∃ (e : IndexEntry) (k : Nat) (rest : List Event),
          e.indisready = true ∧ e.indisvalid = false ∧ e.indisprimary = false
          ∧ e.indislive = false ∧ e.indisunique = true
          ∧ tr = Event.beginTxn 1 :: Event.createIndexObj e.index_oid
              :: Event.addEntry e
              :: Event.setBuilding (1, 2, e.index_oid) false
              :: Event.commitTxn 1 createEnv0.commitTs1
              :: (((List.range (k + 1)).map fun i =>
                    Event.pollOldest (createEnv0.oldestSeq i))
                  ++ Event.beginTxn 2 :: rest)
          ∧ createEnv0.commitTs1 ≤ createEnv0.oldestSeq k
          ∧ (∀ i, i < k → createEnv0.oldestSeq i < createEnv0.commitTs1) :=
  ⟨_, _, rfl, c1_createConcurrently_t1_then_quiesce 1 2 3 true 1 1 createEnv0
    10 st0 _ _ rfl rfl rfl⟩

theorem c2_createConcurrently_final_entry_witness :
    ∃ (st' : SysState) (tr : List Event),
      CreateConcurrently 1 2 3 true 1 1 createEnv0 10 st0 = some (st', tr)
      ∧ ∃ e : IndexEntry,
          entryOf st' 10 = some e
          ∧ e.indisready = false
          ∧ e.indisvalid = (PopulateIndex createEnv0.rows createEnv0.insertOk).1
          ∧ getBuildingFlag st'.building (1, 2, 10) = some false :=
  ⟨_, _, rfl, c2_createConcurrently_final_entry 1 2 3 true 1 1 createEnv0
    10 st0 _ _ rfl rfl (by intro e he; simp [st0] at he) rfl⟩

theorem c4_missing_table_aborts_witness :
    CreateConcurrently 1 2 3 true 1 1 createEnvNoTable 10 st0
      = some (st0, [Event.beginTxn 1, Event.abortTxn 1])
    ∧ Drop 1 2 3 7 dropEnvNoTable 10 st0
      = some (st0, [Event.beginTxn 3, Event.abortTxn 3]) :=
  ⟨(c4_missing_table_aborts 1 2 3 7 true 1 1 createEnvNoTable dropEnvNoTable
      10 10 st0 rfl rfl).1,
   (c4_missing_table_aborts 1 2 3 7 true 1 1 createEnvNoTable dropEnvNoTable
      10 10 st0 rfl rfl).2.1⟩

end Terrier
